import Mathlib

/-!
Verification development for the client-side structured-logging subsystem of
the FrugalBitesVendor repository (`src/App.tsx`, Logger service, together with
`src/config/logging.config.ts`).

The TypeScript code is shallowly embedded: entries and configurations are Lean
structures, the `AsyncStorage` slot under the single log key is an explicit
`Storage` value, a logger's private `pendingLogs` / `flushTimer` fields are an
explicit `RemoteState`, and the wall clock, platform info, network outcome and
in-flight arrivals are explicit parameters.  JavaScript peculiarities that the
code relies on are embedded faithfully: `slice(-0)` returning the whole array,
truthiness tests (`log.data ?`, `!this.config.remoteEndpoint`,
`context || error.message`), and `fetch` resolving on non-2xx responses.
-/

namespace FrugalBites

/-- The five log levels of `logging.config.ts` (`type LogLevel`). -/
inductive LogLevel where
  | debug
  | info
  | warn
  | error
  | none
deriving DecidableEq

/-- `LOG_LEVELS` rank table from `App.tsx`. -/
def LOG_LEVELS : LogLevel → Nat
  | .debug => 0
  | .info => 1
  | .warn => 2
  | .error => 3
  | .none => 4

/-- Uppercase rendering of a level (`level.toUpperCase()`). -/
def LogLevel.upper : LogLevel → String
  | .debug => "DEBUG"
  | .info => "INFO"
  | .warn => "WARN"
  | .error => "ERROR"
  | .none => "NONE"

/-- JSON-like values standing for the `any`-typed `data` payload attached to a
log entry. -/
inductive Json where
  | null
  | bool (b : Bool)
  | num (n : Int)
  | str (s : String)
  | arr (elems : List Json)
  | obj (fields : List (String × Json))

/-- JavaScript truthiness of a payload value, as tested by `log.data ?` in
`exportLogs`. -/
def Json.truthy : Json → Bool
  | .null => false
  | .bool b => b
  | .num n => n != 0
  | .str s => s != ""
  | .arr _ => true
  | .obj _ => true

/-- String escaping used when serializing a JSON string value. -/
def jsonQuote (s : String) : String :=
  "\"" ++ String.join (s.toList.map (fun ch =>
    if ch = '"' then "\\\"" else if ch = '\\' then "\\\\" else String.singleton ch)) ++ "\""

mutual

/-- Rendering of a payload value as text (`JSON.stringify(log.data)`). -/
def jsonStringify : Json → String
  | .null => "null"
  | .bool b => cond b "true" "false"
  | .num n => toString n
  | .str s => jsonQuote s
  | .arr l => "[" ++ jsonArrStr l ++ "]"
  | .obj l => "\x7b" ++ jsonObjStr l ++ "\x7d"

/-- Comma-joined rendering of the elements of a JSON array. -/
def jsonArrStr : List Json → String
  | [] => ""
  | [x] => jsonStringify x
  | x :: y :: xs => jsonStringify x ++ "," ++ jsonArrStr (y :: xs)

/-- Comma-joined rendering of the fields of a JSON object. -/
def jsonObjStr : List (String × Json) → String
  | [] => ""
  | [(k, v)] => jsonQuote k ++ ":" ++ jsonStringify v
  | (k, v) :: y :: xs => jsonQuote k ++ ":" ++ jsonStringify v ++ "," ++ jsonObjStr (y :: xs)

end

/-- Device metadata attached when `includeDeviceInfo` is set
(`Platform.OS` / `Platform.Version`). -/
structure DeviceInfo where
  platform : String
  version : String
deriving DecidableEq

/-- A log entry (`interface LogEntry` in `App.tsx`).  `data = Option.none`
embeds an absent (`undefined`) payload; `deviceInfo = Option.none` an absent
device block. -/
structure LogEntry where
  timestamp : String
  level : LogLevel
  message : String
  context : String
  data : Option Json
  deviceInfo : Option DeviceInfo

/-- The logging configuration (`interface LoggingConfig` in
`logging.config.ts`).  `remoteEndpoint = Option.none` embeds an absent
endpoint. -/
structure LoggingConfig where
  minLevel : LogLevel
  enableConsole : Bool
  enableLocalStorage : Bool
  maxStoredLogs : Nat
  enableRemoteLogging : Bool
  remoteEndpoint : Option String
  remoteMinLevel : LogLevel
  includeDeviceInfo : Bool
  includeTimestamp : Bool
  appName : String
deriving DecidableEq

/-- `developmentConfig` from `logging.config.ts`. -/
def developmentConfig : LoggingConfig where
  minLevel := .debug
  enableConsole := true
  enableLocalStorage := true
  maxStoredLogs := 500
  enableRemoteLogging := false
  remoteEndpoint := Option.none
  remoteMinLevel := .error
  includeDeviceInfo := true
  includeTimestamp := true
  appName := "FrugalBitesVendor"

/-- `productionConfig` from `logging.config.ts`. -/
def productionConfig : LoggingConfig where
  minLevel := .info
  enableConsole := false
  enableLocalStorage := true
  maxStoredLogs := 200
  enableRemoteLogging := true
  remoteEndpoint := some "https://your-logging-server.com/api/logs"
  remoteMinLevel := .warn
  includeDeviceInfo := true
  includeTimestamp := true
  appName := "FrugalBitesVendor"

/-- A `Partial<LoggingConfig>` as accepted by `Logger.configure`: every field
optional, an absent field leaves the current value untouched. -/
structure ConfigUpdates where
  minLevel : Option LogLevel
  enableConsole : Option Bool
  enableLocalStorage : Option Bool
  maxStoredLogs : Option Nat
  enableRemoteLogging : Option Bool
  remoteEndpoint : Option (Option String)
  remoteMinLevel : Option LogLevel
  includeDeviceInfo : Option Bool
  includeTimestamp : Option Bool
  appName : Option String

/-- An update object with no fields set (`{}`). -/
def ConfigUpdates.empty : ConfigUpdates where
  minLevel := Option.none
  enableConsole := Option.none
  enableLocalStorage := Option.none
  maxStoredLogs := Option.none
  enableRemoteLogging := Option.none
  remoteEndpoint := Option.none
  remoteMinLevel := Option.none
  includeDeviceInfo := Option.none
  includeTimestamp := Option.none
  appName := Option.none

/-- The object spread `{ ...c, ...u }` performed by `Logger.configure`: fields
present in `u` override those of `c`. -/
def mergeConfig (c : LoggingConfig) (u : ConfigUpdates) : LoggingConfig where
  minLevel := u.minLevel.getD c.minLevel
  enableConsole := u.enableConsole.getD c.enableConsole
  enableLocalStorage := u.enableLocalStorage.getD c.enableLocalStorage
  maxStoredLogs := u.maxStoredLogs.getD c.maxStoredLogs
  enableRemoteLogging := u.enableRemoteLogging.getD c.enableRemoteLogging
  remoteEndpoint := u.remoteEndpoint.getD c.remoteEndpoint
  remoteMinLevel := u.remoteMinLevel.getD c.remoteMinLevel
  includeDeviceInfo := u.includeDeviceInfo.getD c.includeDeviceInfo
  includeTimestamp := u.includeTimestamp.getD c.includeTimestamp
  appName := u.appName.getD c.appName

/-- `Logger.shouldLog`: `LOG_LEVELS[level] >= LOG_LEVELS[this.config.minLevel]`. -/
def shouldLog (cfg : LoggingConfig) (level : LogLevel) : Bool :=
  decide (LOG_LEVELS cfg.minLevel ≤ LOG_LEVELS level)

/-- `Logger.shouldLogRemote`: remote logging enabled and
`LOG_LEVELS[level] >= LOG_LEVELS[this.config.remoteMinLevel]`. -/
def shouldLogRemote (cfg : LoggingConfig) (level : LogLevel) : Bool :=
  cfg.enableRemoteLogging && decide (LOG_LEVELS cfg.remoteMinLevel ≤ LOG_LEVELS level)

/-- JavaScript truthiness of the optional `remoteEndpoint` string, as tested by
`!this.config.remoteEndpoint` in `flushRemoteLogs` (both a missing endpoint and
the empty string are falsy). -/
def jsTruthyStr : Option String → Bool
  | Option.none => false
  | some s => s != ""

/-- `Logger.formatEntry`.  `now` embeds `new Date().toISOString()` and `dev`
the platform query; the payload is attached exactly when one was supplied
(`data !== undefined`), the device block exactly when `includeDeviceInfo`. -/
def formatEntry (cfg : LoggingConfig) (context now : String) (dev : DeviceInfo)
    (level : LogLevel) (message : String) (data : Option Json) : LogEntry where
  timestamp := now
  level := level
  message := message
  context := context
  data := data
  deviceInfo := if cfg.includeDeviceInfo then some dev else Option.none

/-- `Logger.logToConsole`: the console channel receives the entry exactly when
`config.enableConsole` is set. -/
def logToConsole (cfg : LoggingConfig) (entry : LogEntry) : Option LogEntry :=
  if cfg.enableConsole then some entry else Option.none

/-- The value found under the single `AsyncStorage` log key: either a
serialization of a list of entries or a non-empty string on which `JSON.parse`
throws. -/
inductive StoredVal where
  | corrupt
  | logs (l : List LogEntry)

/-- The `AsyncStorage` slot: `Option.none` embeds `getItem` returning `null`. -/
abbrev Storage := Option StoredVal

/-- JavaScript `array.slice(-n)`: for `n = 0` the argument is `-0 === 0` and
the whole array is returned; otherwise the last `n` elements (all of them when
`n` exceeds the length). -/
def jsSliceNeg (n : Nat) (l : List LogEntry) : List LogEntry :=
  if n = 0 then l else l.drop (l.length - n)

/-- The shared push-then-truncate path of `Logger.storeLocally`:
`logs.push(entry)` followed by `logs = logs.slice(-maxStoredLogs)` when the
length exceeds `maxStoredLogs`. -/
def pushTrunc (cfg : LoggingConfig) (l : List LogEntry) (e : LogEntry) : List LogEntry :=
  let logs := l ++ [e]
  if cfg.maxStoredLogs < logs.length then jsSliceNeg cfg.maxStoredLogs logs else logs

/-- `Logger.storeLocally`: no-op when local storage is disabled; a `null`
stored value parses to `[]`; a corrupt stored value makes `JSON.parse` throw,
the `catch` swallows the error and no write happens. -/
def storeLocally (cfg : LoggingConfig) (e : LogEntry) (s : Storage) : Storage :=
  if cfg.enableLocalStorage then
    match s with
    | Option.none => some (.logs (pushTrunc cfg [] e))
    | some (.logs l) => some (.logs (pushTrunc cfg l e))
    | some .corrupt => s
  else s

/-- `Logger.getStoredLogs`: the stored list, `[]` when nothing is stored or
parsing throws (the `catch` returns `[]`). -/
def getStoredLogs : Storage → List LogEntry
  | Option.none => []
  | some (.logs l) => l
  | some .corrupt => []

/-- One line of `Logger.exportLogs`; the payload segment is appended exactly
when `log.data` is truthy. -/
def exportLine (e : LogEntry) : String :=
  e.timestamp ++ " [" ++ e.level.upper ++ "] [" ++ e.context ++ "] " ++ e.message ++
    (match e.data with
     | some d => if d.truthy then " " ++ jsonStringify d else ""
     | Option.none => "")

/-- `Logger.exportLogs`: newline-joined lines over the stored entries. -/
def exportLogs (s : Storage) : String :=
  String.intercalate "\n" ((getStoredLogs s).map exportLine)

/-- The remote-uploader part of a logger instance: the private `pendingLogs`
array and whether a `flushTimer` is currently armed. -/
structure RemoteState where
  pendingLogs : List LogEntry
  flushTimer : Bool

/-- What `queueForRemote` does besides updating the instance state: call
`flushRemoteLogs` at once, arm a timer with the given delay, or nothing. -/
inductive RemoteAction where
  | flush
  | armTimer (delay : Nat)
  | noAction
deriving DecidableEq

/-- `Logger.queueForRemote`: drop non-qualifying entries; push; flush
immediately at `pendingLogs.length >= 10`; otherwise arm a 5000-unit timer if
none is armed. -/
def queueForRemote (cfg : LoggingConfig) (st : RemoteState) (e : LogEntry) :
    RemoteState × RemoteAction :=
  if shouldLogRemote cfg e.level then
    let p := st.pendingLogs ++ [e]
    if 10 ≤ p.length then (⟨p, st.flushTimer⟩, .flush)
    else if st.flushTimer then (⟨p, st.flushTimer⟩, .noAction)
    else (⟨p, true⟩, .armTimer 5000)
  else (st, .noAction)

/-- `Logger.flushRemoteLogs`.  The timer is cleared first.  `arrivals` are the
entries enqueued while the `fetch` is in flight (they land in the fresh
`pendingLogs`); `outcome` is the result of the awaited `fetch`: `Except.ok s`
is a response with HTTP status `s` (the code never inspects the status), and
`Except.error ()` a transport error, on which the `catch` prepends the
outgoing batch back onto `pendingLogs`.  The second component is the batch
delivered to the endpoint, if any. -/
def flushRemoteLogs (cfg : LoggingConfig) (st : RemoteState)
    (arrivals : List LogEntry) (outcome : Except Unit Nat) :
    RemoteState × Option (List LogEntry) :=
  if st.pendingLogs.length = 0 ∨ jsTruthyStr cfg.remoteEndpoint = false then
    (⟨st.pendingLogs, false⟩, Option.none)
  else
    let logsToSend := st.pendingLogs
    match outcome with
    | .ok _ => (⟨arrivals, false⟩, some logsToSend)
    | .error _ => (⟨logsToSend ++ arrivals, false⟩, Option.none)

/-- `queueForRemote` together with the `flushRemoteLogs` call it makes when the
batch threshold is reached. -/
def queueForRemoteRun (cfg : LoggingConfig) (st : RemoteState) (e : LogEntry)
    (arrivals : List LogEntry) (outcome : Except Unit Nat) :
    RemoteState × Option (List LogEntry) :=
  match queueForRemote cfg st e with
  | (st', .flush) => flushRemoteLogs cfg st' arrivals outcome
  | (st', _) => (st', Option.none)

/-- The observable result of one `Logger.log` call: the entry built (if any),
what reached the console channel, the storage slot afterwards, the instance's
remote state afterwards, and the remote action taken. -/
structure LogResult where
  entryBuilt : Option LogEntry
  consoleOut : Option LogEntry
  storage : Storage
  remote : RemoteState
  action : RemoteAction

/-- `Logger.log`, the core dispatch: return immediately unless `shouldLog`,
otherwise build one entry via `formatEntry` and offer it to the console sink,
the durable store and the remote queue. -/
def log (cfg : LoggingConfig) (ctx now : String) (dev : DeviceInfo)
    (storage : Storage) (rs : RemoteState) (level : LogLevel)
    (message : String) (data : Option Json) : LogResult :=
  if shouldLog cfg level then
    let entry := formatEntry cfg ctx now dev level message data
    let qr := queueForRemote cfg rs entry
    { entryBuilt := some entry
      consoleOut := logToConsole cfg entry
      storage := storeLocally cfg entry storage
      remote := qr.1
      action := qr.2 }
  else
    { entryBuilt := Option.none
      consoleOut := Option.none
      storage := storage
      remote := rs
      action := .noAction }

/-- `Logger.logError`'s `context || error.message`: JavaScript `||` falls back
on the empty string as well as on a missing argument. -/
def jsOrStr (c : Option String) (d : String) : String :=
  match c with
  | some s => if s = "" then d else s
  | Option.none => d

/-- An `Error` object as consumed by `Logger.logError`. -/
structure ErrorObj where
  name : String
  message : String
  stack : String

/-- The data payload built by `Logger.logError`:
`{ name: error.name, message: error.message, stack: error.stack }`. -/
def errData (e : ErrorObj) : Json :=
  .obj [("name", .str e.name), ("message", .str e.message), ("stack", .str e.stack)]

/-- `Logger.logError`: a `log` at level `error` with message
`context || error.message` and the name/message/stack payload. -/
def logError (cfg : LoggingConfig) (ctx now : String) (dev : DeviceInfo)
    (storage : Storage) (rs : RemoteState) (e : ErrorObj) (c : Option String) : LogResult :=
  log cfg ctx now dev storage rs .error (jsOrStr c e.message) (some (errData e))

/-- A logger object: its `context` string, a reference into the heap of
configuration objects (JavaScript object identity), and its private remote
fields.  `new Logger()` starts at context `"App"` pointing at the module-level
`loggingConfig` object (heap slot 0), with an empty queue and no timer. -/
structure Logger where
  context : String
  configRef : Nat
  pendingLogs : List LogEntry
  flushTimer : Bool

/-- The heap of configuration objects; slot 0 is the module-level
`loggingConfig` the constructor points every new logger at. -/
abbrev ConfigHeap := List LoggingConfig

/-- Dereference a logger's configuration object. -/
def readConfig (h : ConfigHeap) (l : Logger) : LoggingConfig :=
  List.getD h l.configRef developmentConfig

/-- `new Logger()`. -/
def mkLogger : Logger := ⟨"App", 0, [], false⟩

/-- `Logger.withContext`: a fresh instance (empty queue, no timer) with the
given context, whose `config` field is the same reference as the parent's. -/
def withContext (l : Logger) (context : String) : Logger :=
  ⟨context, l.configRef, [], false⟩

/-- `Logger.configure`: `this.config = { ...this.config, ...updates }`
allocates a new configuration object (a fresh heap slot holding the merge) and
repoints only this logger's reference at it. -/
def configure (h : ConfigHeap) (l : Logger) (u : ConfigUpdates) : ConfigHeap × Logger :=
  (h ++ [mergeConfig (readConfig h l) u], { l with configRef := h.length })

/-- A family of logger instances' remote states, indexed by instance. -/
abbrev SysState := Nat → RemoteState

/-- `queueForRemote` invoked on instance `i` of a family: only that instance's
private state changes. -/
def sysEnqueue (cfg : LoggingConfig) (i : Nat) (e : LogEntry) (s : SysState) :
    SysState × RemoteAction :=
  let r := queueForRemote cfg (s i) e
  (fun j => if j = i then r.1 else s j, r.2)

/-- `flushRemoteLogs` invoked on instance `i` of a family. -/
def sysFlush (cfg : LoggingConfig) (i : Nat) (arrivals : List LogEntry)
    (outcome : Except Unit Nat) (s : SysState) : SysState × Option (List LogEntry) :=
  let r := flushRemoteLogs cfg (s i) arrivals outcome
  (fun j => if j = i then r.1 else s j, r.2)

/-- Iterated `storeLocally` over a sequence of entries (sequential,
non-overlapping appends). -/
def appendSeq (cfg : LoggingConfig) (s : Storage) (es : List LogEntry) : Storage :=
  es.foldl (fun st e => storeLocally cfg e st) s

/-- The last `c` elements of a list, in order. -/
def takeLast (c : Nat) (l : List LogEntry) : List LogEntry :=
  l.drop (l.length - c)

/-- A fixed device-info value used in concrete evaluations. -/
def devX : DeviceInfo := ⟨"ios", "17.0"⟩

/-- A concrete payload-free entry used in concrete evaluations. -/
def mkE (ts : String) (lv : LogLevel) (msg : String) : LogEntry :=
  ⟨ts, lv, msg, "App", Option.none, Option.none⟩

/-! ## Helper lemmas -/

theorem suffix_eq_of_len {α : Type} {x s1 s2 : List α} (h1 : s1 <:+ x) (h2 : s2 <:+ x)
    (h : s1.length = s2.length) : s1 = s2 := by
  obtain ⟨u, hu⟩ := h1
  obtain ⟨v, hv⟩ := h2
  have hlu := congrArg List.length hu
  have hlv := congrArg List.length hv
  simp only [List.length_append] at hlu hlv
  exact (List.append_inj (hu.trans hv.symm) (by omega)).2

theorem takeLast_suffix (c : Nat) (l : List LogEntry) : takeLast c l <:+ l :=
  List.drop_suffix _ _

theorem takeLast_length (c : Nat) (l : List LogEntry) :
    (takeLast c l).length = l.length - (l.length - c) := by
  simp [takeLast]

theorem takeLast_length_le (c : Nat) (l : List LogEntry) : (takeLast c l).length ≤ c := by
  rw [takeLast_length]; omega

theorem takeLast_of_len_le {c : Nat} {l : List LogEntry} (h : l.length ≤ c) :
    takeLast c l = l := by
  simp [takeLast, Nat.sub_eq_zero_of_le h]

theorem takeLast_append_takeLast (c : Nat) (a b : List LogEntry) :
    takeLast c (takeLast c a ++ b) = takeLast c (a ++ b) := by
  rcases le_or_lt a.length c with h | h
  · rw [takeLast_of_len_le h]
  · have hta : takeLast c a <:+ a := takeLast_suffix c a
    have htab : takeLast c a ++ b <:+ a ++ b := by
      obtain ⟨w, hw⟩ := hta
      exact ⟨w, by rw [← List.append_assoc, hw]⟩
    have h1 : takeLast c (takeLast c a ++ b) <:+ a ++ b :=
      (takeLast_suffix c (takeLast c a ++ b)).trans htab
    have h2 : takeLast c (a ++ b) <:+ a ++ b := takeLast_suffix c (a ++ b)
    apply suffix_eq_of_len h1 h2
    rw [takeLast_length, takeLast_length]
    simp only [List.length_append, takeLast_length]
    omega

theorem pushTrunc_eq_takeLast {cfg : LoggingConfig} (hc : 0 < cfg.maxStoredLogs)
    {l : List LogEntry} (e : LogEntry) (hl : l.length ≤ cfg.maxStoredLogs) :
    pushTrunc cfg l e = takeLast cfg.maxStoredLogs (l ++ [e]) := by
  unfold pushTrunc jsSliceNeg
  simp only [List.length_append, List.length_cons]
  rcases Nat.lt_or_ge cfg.maxStoredLogs (l.length + 1) with h | h
  · rw [if_pos (by simpa using h), if_neg (by omega)]
    simp [takeLast]
  · rw [if_neg (by simpa using Nat.not_lt.mpr h)]
    rw [takeLast_of_len_le (by simpa using h)]

theorem appendSeq_from_logs {cfg : LoggingConfig} (hE : cfg.enableLocalStorage = true)
    (hc : 0 < cfg.maxStoredLogs) :
    ∀ (es : List LogEntry) (l : List LogEntry), l.length ≤ cfg.maxStoredLogs →
      appendSeq cfg (some (.logs l)) es =
        some (.logs (takeLast cfg.maxStoredLogs (l ++ es))) := by
  intro es
  induction es with
  | nil =>
    intro l hl
    simp [appendSeq, takeLast_of_len_le hl]
  | cons e tl ih =>
    intro l hl
    have hstep : storeLocally cfg e (some (.logs l)) =
        some (.logs (takeLast cfg.maxStoredLogs (l ++ [e]))) := by
      simp [storeLocally, hE, pushTrunc_eq_takeLast hc e hl]
    calc appendSeq cfg (some (.logs l)) (e :: tl)
        = appendSeq cfg (storeLocally cfg e (some (.logs l))) tl := rfl
      _ = appendSeq cfg (some (.logs (takeLast cfg.maxStoredLogs (l ++ [e])))) tl := by
          rw [hstep]
      _ = some (.logs (takeLast cfg.maxStoredLogs (takeLast cfg.maxStoredLogs (l ++ [e]) ++ tl))) :=
          ih _ (takeLast_length_le _ _)
      _ = some (.logs (takeLast cfg.maxStoredLogs (l ++ e :: tl))) := by
          rw [takeLast_append_takeLast]
          simp

theorem appendSeq_from_none {cfg : LoggingConfig} (hE : cfg.enableLocalStorage = true)
    (hc : 0 < cfg.maxStoredLogs) (e : LogEntry) (tl : List LogEntry) :
    appendSeq cfg Option.none (e :: tl) =
      some (.logs (takeLast cfg.maxStoredLogs (e :: tl))) := by
  have hstep : storeLocally cfg e Option.none =
      some (.logs (takeLast cfg.maxStoredLogs [e])) := by
    simp [storeLocally, hE]
    have := @pushTrunc_eq_takeLast cfg hc [] e (by simp)
    simpa using this
  calc appendSeq cfg Option.none (e :: tl)
      = appendSeq cfg (storeLocally cfg e Option.none) tl := rfl
    _ = appendSeq cfg (some (.logs (takeLast cfg.maxStoredLogs [e]))) tl := by rw [hstep]
    _ = some (.logs (takeLast cfg.maxStoredLogs (takeLast cfg.maxStoredLogs [e] ++ tl))) :=
        appendSeq_from_logs hE hc _ _ (takeLast_length_le _ _)
    _ = some (.logs (takeLast cfg.maxStoredLogs (e :: tl))) := by
        have := takeLast_append_takeLast cfg.maxStoredLogs [e] tl
        simpa using this

/-! ## Claim theorems -/

/-- C1: for every leveled call with level `L`, if `rank(L) < rank(minLevel)`
the call returns immediately — no entry is constructed, the console channel
receives nothing, the storage slot and the remote state are untouched and no
remote action happens; otherwise exactly one entry is built by `formatEntry`
and it is offered to the console sink, the durable store and the remote
queue. -/
theorem c1_log_dispatch (cfg : LoggingConfig) (ctx now : String) (dev : DeviceInfo)
    (storage : Storage) (rs : RemoteState) (level : LogLevel) (message : String)
    (data : Option Json) :
    (LOG_LEVELS level < LOG_LEVELS cfg.minLevel →
      log cfg ctx now dev storage rs level message data =
        ⟨Option.none, Option.none, storage, rs, .noAction⟩) ∧
    (LOG_LEVELS cfg.minLevel ≤ LOG_LEVELS level →
      log cfg ctx now dev storage rs level message data =
        ⟨some (formatEntry cfg ctx now dev level message data),
         logToConsole cfg (formatEntry cfg ctx now dev level message data),
         storeLocally cfg (formatEntry cfg ctx now dev level message data) storage,
         (queueForRemote cfg rs (formatEntry cfg ctx now dev level message data)).1,
         (queueForRemote cfg rs (formatEntry cfg ctx now dev level message data)).2⟩) := by
  constructor
  · intro h
    simp [log, shouldLog, Nat.not_le.mpr h]
  · intro h
    simp [log, shouldLog, h]

/-- Witness for C1 at the production configuration (`minLevel = info`): a
`debug` call does nothing, and a `warn` call dispatches to all three sinks. -/
theorem c1_log_dispatch_witness :
    log productionConfig "App" "t0" devX Option.none ⟨[], false⟩ .debug "x" Option.none =
      ⟨Option.none, Option.none, Option.none, ⟨[], false⟩, .noAction⟩ :=
  (c1_log_dispatch productionConfig "App" "t0" devX Option.none ⟨[], false⟩ .debug "x"
    Option.none).1 (by decide)

/-- A configuration with capacity `maxStoredLogs = 0`, on which the eviction
code `logs.slice(-0)` keeps the whole array. -/
def cfg0 : LoggingConfig := { developmentConfig with maxStoredLogs := 0 }

/-- A concrete entry used for the C2 counterexample. -/
def eC2 : LogEntry := mkE "2024-01-01T00:00:00.000Z" .info "m2"

/-- C2 counterexample: with the non-negative capacity `maxStoredLogs = 0` and
local storage enabled, one single append (`N = 1 > 0 = maxStoredLogs`) leaves
the stored sequence at length `1 > maxStoredLogs`: `slice(-0)` is `slice(0)`
in JavaScript and keeps everything, so the store exceeds its capacity and does
not equal the last `0` entries. -/
theorem c2_counterexample :
    cfg0.enableLocalStorage = true ∧ cfg0.maxStoredLogs < [eC2].length ∧
    cfg0.maxStoredLogs < (getStoredLogs (appendSeq cfg0 Option.none [eC2])).length := by
  exact ⟨rfl, by decide, by decide⟩

/-- C2 amended: for every **positive** capacity `maxStoredLogs`, after `N`
sequential non-overlapping appends with `N > maxStoredLogs`, the stored
sequence equals exactly the last `maxStoredLogs` entries in original order,
and after every prefix of the appends the stored sequence has at most
`maxStoredLogs` entries. -/
theorem c2_bounded_store (cfg : LoggingConfig) (es : List LogEntry)
    (hE : cfg.enableLocalStorage = true) (hc : 0 < cfg.maxStoredLogs)
    (hN : cfg.maxStoredLogs < es.length) :
    getStoredLogs (appendSeq cfg Option.none es) =
      es.drop (es.length - cfg.maxStoredLogs) ∧
    ∀ p, p <+: es → (getStoredLogs (appendSeq cfg Option.none p)).length ≤
      cfg.maxStoredLogs := by
  constructor
  · match es, hN with
    | e :: tl, _ =>
      rw [appendSeq_from_none hE hc e tl]
      rfl
  · intro p hp
    match p with
    | [] => simp [appendSeq, getStoredLogs]
    | e :: tl =>
      rw [appendSeq_from_none hE hc e tl]
      exact takeLast_length_le _ _

/-- Witness for C2 amended: capacity 2, three appends; the store holds the last
two entries. -/
theorem c2_bounded_store_witness :
    getStoredLogs (appendSeq { developmentConfig with maxStoredLogs := 2 } Option.none
        [mkE "t1" .info "a", mkE "t2" .info "b", mkE "t3" .info "c"]) =
      ([mkE "t1" .info "a", mkE "t2" .info "b", mkE "t3" .info "c"].drop 1) :=
  (c2_bounded_store { developmentConfig with maxStoredLogs := 2 }
    [mkE "t1" .info "a", mkE "t2" .info "b", mkE "t3" .info "c"]
    rfl (by decide) (by decide)).1

/-- A configuration whose orchestrator threshold is above the remote
threshold: `minLevel = error`, `remoteMinLevel = debug`. -/
def cfgC5 : LoggingConfig :=
  { productionConfig with minLevel := .error, remoteMinLevel := .debug }

/-- C5 counterexample: with `minLevel = error`, `remoteMinLevel = debug` and
remote logging enabled, an `info` call satisfies
`rank(info) ≥ rank(remoteMinLevel)` yet never reaches the remote queue,
because the single top-level `shouldLog` gate already dropped it — the claimed
iff `reaches-remote ⟺ rank(L) ≥ rank(remoteMinLevel)` fails. -/
theorem c5_counterexample :
    cfgC5.enableRemoteLogging = true ∧
    LOG_LEVELS cfgC5.remoteMinLevel ≤ LOG_LEVELS .info ∧
    (log cfgC5 "App" "t0" devX Option.none ⟨[], false⟩ .info "m" Option.none).remote.pendingLogs
      = [] := by
  exact ⟨rfl, by decide, rfl⟩

/-- C5 amended: the console channel receives the entry iff
`rank(L) ≥ rank(minLevel)` and the console is enabled; the entry is appended
to the remote queue iff `rank(L) ≥ rank(minLevel)` **and** remote logging is
enabled **and** `rank(L) ≥ rank(remoteMinLevel)` — the remote sink filters
independently on top of the orchestrator gate, so an entry can be
console-visible but remote-suppressed, while an entry below `minLevel` reaches
neither sink. -/
theorem no_self_append {l : List LogEntry} {e : LogEntry} : l ≠ l ++ [e] := by
  intro h
  have := congrArg List.length h
  simp at this

theorem queueForRemote_pending (cfg : LoggingConfig) (st : RemoteState) (e : LogEntry) :
    (queueForRemote cfg st e).1.pendingLogs =
      if shouldLogRemote cfg e.level = true then st.pendingLogs ++ [e]
      else st.pendingLogs := by
  by_cases h : shouldLogRemote cfg e.level = true
  · simp only [queueForRemote, h, if_true]
    split
    · rfl
    · split <;> rfl
  · simp [queueForRemote, h]

theorem log_console_isSome (cfg : LoggingConfig) (ctx now : String) (dev : DeviceInfo)
    (storage : Storage) (rs : RemoteState) (level : LogLevel) (message : String)
    (data : Option Json) :
    (log cfg ctx now dev storage rs level message data).consoleOut.isSome =
      (shouldLog cfg level && cfg.enableConsole) := by
  by_cases h1 : shouldLog cfg level = true <;> by_cases h2 : cfg.enableConsole = true <;>
    simp [log, logToConsole, h1, h2]

theorem log_remote_pending (cfg : LoggingConfig) (ctx now : String) (dev : DeviceInfo)
    (storage : Storage) (rs : RemoteState) (level : LogLevel) (message : String)
    (data : Option Json) :
    (log cfg ctx now dev storage rs level message data).remote.pendingLogs =
      if (shouldLog cfg level && shouldLogRemote cfg level) = true
      then rs.pendingLogs ++ [formatEntry cfg ctx now dev level message data]
      else rs.pendingLogs := by
  by_cases h1 : shouldLog cfg level = true
  · have hr : (log cfg ctx now dev storage rs level message data).remote =
        (queueForRemote cfg rs (formatEntry cfg ctx now dev level message data)).1 := by
      simp [log, h1]
    rw [hr, queueForRemote_pending]
    have hlev : (formatEntry cfg ctx now dev level message data).level = level := rfl
    rw [hlev]
    by_cases h2 : shouldLogRemote cfg level = true <;> simp [h1, h2]
  · have hr : (log cfg ctx now dev storage rs level message data).remote = rs := by
      simp [log, h1]
    rw [hr]
    simp [Bool.and_eq_true, h1]

theorem c5_sink_filtering (cfg : LoggingConfig) (ctx now : String) (dev : DeviceInfo)
    (storage : Storage) (rs : RemoteState) (level : LogLevel) (message : String)
    (data : Option Json) :
    ((log cfg ctx now dev storage rs level message data).consoleOut.isSome = true ↔
      (LOG_LEVELS cfg.minLevel ≤ LOG_LEVELS level ∧ cfg.enableConsole = true)) ∧
    ((∃ e, (log cfg ctx now dev storage rs level message data).remote.pendingLogs =
        rs.pendingLogs ++ [e]) ↔
      (LOG_LEVELS cfg.minLevel ≤ LOG_LEVELS level ∧ cfg.enableRemoteLogging = true ∧
        LOG_LEVELS cfg.remoteMinLevel ≤ LOG_LEVELS level)) := by
  constructor
  · rw [log_console_isSome]
    simp [shouldLog, Bool.and_eq_true]
  · rw [log_remote_pending]
    by_cases hc : (shouldLog cfg level && shouldLogRemote cfg level) = true
    · have hc' := hc
      simp only [Bool.and_eq_true, shouldLog, shouldLogRemote, decide_eq_true_eq] at hc'
      simp only [hc, if_true]
      constructor
      · intro _
        exact ⟨hc'.1, hc'.2.1, hc'.2.2⟩
      · intro _
        exact ⟨formatEntry cfg ctx now dev level message data, rfl⟩
    · have hc' := hc
      simp only [Bool.and_eq_true, shouldLog, shouldLogRemote, decide_eq_true_eq,
        not_and] at hc'
      simp only [hc, if_false]
      constructor
      · intro ⟨e, he⟩
        exact absurd he no_self_append
      · intro ⟨ha, hb, hd⟩
        exact absurd hd (hc' ha hb)

/-- An entry at level `warn`, qualifying for the remote queue under the
production configuration. -/
def eW : LogEntry := mkE "2024-01-01T00:00:03.000Z" .warn "w"

/-- C6: for a qualifying remote enqueue — (a) if the queue length reaches 10
the flush runs immediately (the batch goes out without waiting for any
timer); (b) below 10 with no armed timer, a 5000-unit timer is armed; (c)
below 10 with a timer already armed, no second timer is created and the state
keeps the single armed timer. -/
theorem c6_batch_trigger (cfg : LoggingConfig) (st : RemoteState) (e : LogEntry)
    (arrivals : List LogEntry) (s : Nat) (hq : shouldLogRemote cfg e.level = true) :
    (10 ≤ st.pendingLogs.length + 1 → jsTruthyStr cfg.remoteEndpoint = true →
      queueForRemoteRun cfg st e arrivals (.ok s) =
        (⟨arrivals, false⟩, some (st.pendingLogs ++ [e]))) ∧
    (st.pendingLogs.length + 1 < 10 → st.flushTimer = false →
      queueForRemote cfg st e = (⟨st.pendingLogs ++ [e], true⟩, .armTimer 5000)) ∧
    (st.pendingLogs.length + 1 < 10 → st.flushTimer = true →
      queueForRemote cfg st e = (⟨st.pendingLogs ++ [e], true⟩, .noAction)) := by
  refine ⟨?_, ?_, ?_⟩
  · intro hlen hend
    have hq10 : queueForRemote cfg st e = (⟨st.pendingLogs ++ [e], st.flushTimer⟩, .flush) := by
      simp [queueForRemote, hq]
      omega
    simp only [queueForRemoteRun, hq10]
    have hne : (st.pendingLogs ++ [e]).length ≠ 0 := by simp
    simp [flushRemoteLogs, hend, hne]
  · intro hlen ht
    simp [queueForRemote, hq, ht]
    omega
  · intro hlen ht
    simp [queueForRemote, hq, ht]
    omega

/-- Witness for C6 at the production configuration: nine pending `warn`
entries plus a tenth enqueue triggers an immediate successful flush of all
ten, in order. -/
theorem c6_batch_trigger_witness :
    queueForRemoteRun productionConfig ⟨List.replicate 9 eW, false⟩ eW [] (.ok 200) =
      (⟨[], false⟩, some (List.replicate 9 eW ++ [eW])) :=
  (c6_batch_trigger productionConfig ⟨List.replicate 9 eW, false⟩ eW [] 200
    (by decide)).1 (by decide) (by decide)

/-- The update object `{ minLevel: 'error' }`. -/
def updErr : ConfigUpdates := { ConfigUpdates.empty with minLevel := some .error }

/-- The heap and loggers after deriving `withContext("Orders")` from the root
logger and then calling `configure({ minLevel: 'error' })` on the root. -/
def c3after : ConfigHeap × Logger := configure [developmentConfig] mkLogger updErr

/-- C3 counterexample: after `configure({minLevel:'error'})` on the root
logger, the previously derived logger still reads `minLevel = debug` while the
root reads `error` — the two loggers do **not** read the same configuration
values, because `configure` replaced the root's configuration object with a
fresh merged copy instead of mutating the shared one. -/
theorem c3_counterexample :
    (readConfig c3after.1 (withContext mkLogger "Orders")).minLevel ≠
      (readConfig c3after.1 c3after.2).minLevel := by
  decide

/-- C3 amended: `withContext` does share the configuration reference at
derivation time (before any `configure`, both loggers read the same object),
but a later `configure(updates)` on the originating logger allocates a fresh
merged configuration object and repoints only that logger: the derived logger
keeps reading the old values, so updates are **not** visible across the
pair. -/
theorem c3_configure_not_shared (h : ConfigHeap) (l : Logger) (ctx : String)
    (u : ConfigUpdates) (href : l.configRef < h.length) :
    readConfig h (withContext l ctx) = readConfig h l ∧
    readConfig (configure h l u).1 (withContext l ctx) = readConfig h l ∧
    readConfig (configure h l u).1 (configure h l u).2 = mergeConfig (readConfig h l) u := by
  refine ⟨rfl, ?_, ?_⟩
  · show List.getD (h ++ [mergeConfig (readConfig h l) u]) l.configRef developmentConfig =
      readConfig h l
    rw [List.getD_append _ _ _ _ href]
    rfl
  · show List.getD (h ++ [mergeConfig (readConfig h l) u]) h.length developmentConfig =
      mergeConfig (readConfig h l) u
    rw [List.getD_append_right _ _ _ _ (Nat.le_refl _)]
    simp

/-- Witness for C3 amended at a one-slot heap holding the development
configuration. -/
theorem c3_configure_not_shared_witness :
    readConfig (configure [developmentConfig] mkLogger updErr).1
        (withContext mkLogger "Offers") = readConfig [developmentConfig] mkLogger :=
  (c3_configure_not_shared [developmentConfig] mkLogger "Offers" updErr (by decide)).2.1

/-- A concrete `warn` entry in the outgoing batch of the C4 counterexample. -/
def eC4 : LogEntry := mkE "2024-01-01T00:00:04.000Z" .warn "m4"

/-- C4 counterexample: a flush whose delivery fails with a **non-success
response** (HTTP 500).  `fetch` resolves on any received response and the code
never inspects the status, so the batch is treated as delivered and discarded:
the pending queue afterwards is empty instead of containing the outgoing
batch, contradicting the claim for the non-success-response failure mode. -/
theorem c4_counterexample :
    flushRemoteLogs productionConfig ⟨[eC4], false⟩ [] (.ok 500) =
      (⟨[], false⟩, some [eC4]) ∧
    ([] : List LogEntry) ≠ [eC4] ++ [] := by
  refine ⟨rfl, by simp⟩

/-- C4 amended: for a flush whose delivery fails with a **transport error**,
the pending queue afterwards equals the outgoing batch (in original order)
followed by every entry enqueued during the in-flight attempt, and a
subsequent successful flush sends exactly that combined ordered sequence.  (A
non-success HTTP response is *not* a failure for this code: the batch is
discarded, see the counterexample.) -/
theorem c4_requeue_on_transport_error (cfg : LoggingConfig) (p arr arr2 : List LogEntry)
    (t : Bool) (s : Nat) (hp : p ≠ []) (he : jsTruthyStr cfg.remoteEndpoint = true) :
    flushRemoteLogs cfg ⟨p, t⟩ arr (.error ()) = (⟨p ++ arr, false⟩, Option.none) ∧
    flushRemoteLogs cfg ⟨p ++ arr, false⟩ arr2 (.ok s) = (⟨arr2, false⟩, some (p ++ arr)) := by
  have hlen : p.length ≠ 0 := by simpa using hp
  have hc1 : ¬(p.length = 0 ∨ jsTruthyStr cfg.remoteEndpoint = false) := by
    simp [he, hlen]
  have hc2 : ¬((p ++ arr).length = 0 ∨ jsTruthyStr cfg.remoteEndpoint = false) := by
    intro hor
    rcases hor with h0 | hfalse
    · rw [List.length_append] at h0
      omega
    · exact absurd hfalse (by simp [he])
  constructor
  · unfold flushRemoteLogs
    rw [if_neg hc1]
  · unfold flushRemoteLogs
    rw [if_neg hc2]

/-- Witness for C4 amended: a two-entry batch is rejected by a transport
error while one entry arrives; the queue becomes the batch followed by the
arrival, and the next successful flush sends those three in order. -/
theorem c4_requeue_witness :
    flushRemoteLogs productionConfig ⟨[mkE "ta" .warn "a", mkE "tb" .warn "b"], false⟩
        [mkE "tc" .warn "c"] (.error ()) =
      (⟨[mkE "ta" .warn "a", mkE "tb" .warn "b", mkE "tc" .warn "c"], false⟩,
        Option.none) :=
  ((c4_requeue_on_transport_error productionConfig
      [mkE "ta" .warn "a", mkE "tb" .warn "b"] [mkE "tc" .warn "c"] []
      false 200 (by simp) (by decide)).1).trans (by simp)

/-- The entry appended while the stored value is corrupt in C7. -/
def eC7 : LogEntry := mkE "2024-01-01T00:00:07.000Z" .info "after-corruption"

/-- C7 counterexample: an append hitting a stored value that fails to
deserialize.  `JSON.parse` throws inside the `try`, the `catch` swallows the
error, and **no write happens**: the store keeps the corrupt value, and an
immediate get returns the empty sequence — not a sequence ending in the new
entry as claimed. -/
theorem c7_counterexample :
    developmentConfig.enableLocalStorage = true ∧
    storeLocally developmentConfig eC7 (some .corrupt) = some .corrupt ∧
    ¬ ∃ pre, getStoredLogs (storeLocally developmentConfig eC7 (some .corrupt)) =
        pre ++ [eC7] := by
  refine ⟨rfl, rfl, ?_⟩
  rintro ⟨pre, hpre⟩
  have hnil : getStoredLogs (storeLocally developmentConfig eC7 (some .corrupt)) = [] := rfl
  rw [hnil] at hpre
  simp at hpre

/-- C7 amended: when the stored value fails to deserialize, append never
raises but silently drops the entry: the store is left unchanged (still
corrupt) and a get immediately afterwards returns the empty sequence. -/
theorem c7_corrupt_append (cfg : LoggingConfig) (e : LogEntry)
    (h : cfg.enableLocalStorage = true) :
    storeLocally cfg e (some .corrupt) = some .corrupt ∧
    getStoredLogs (storeLocally cfg e (some .corrupt)) = [] := by
  constructor <;> simp [storeLocally, h, getStoredLogs]

/-- Witness for C7 amended at the development configuration. -/
theorem c7_corrupt_append_witness :
    storeLocally developmentConfig (mkE "t7" .warn "w7") (some .corrupt) =
      some .corrupt :=
  (c7_corrupt_append developmentConfig (mkE "t7" .warn "w7") rfl).1

/-- C8: `logError(E, C)` emits one error-level entry whose data payload is
exactly `{name, message, stack}` of `E`, and when `C` is not given the entry's
message defaults to `E`'s message (whenever the error level passes the
configured threshold, as it does under both shipped configurations). -/
theorem c8_logError (cfg : LoggingConfig) (ctx now : String) (dev : DeviceInfo)
    (storage : Storage) (rs : RemoteState) (e : ErrorObj) (c : Option String)
    (h : LOG_LEVELS cfg.minLevel ≤ LOG_LEVELS .error) :
    ∃ en, (logError cfg ctx now dev storage rs e c).entryBuilt = some en ∧
      en.level = .error ∧ en.data = some (errData e) ∧
      (c = Option.none → en.message = e.message) := by
  refine ⟨formatEntry cfg ctx now dev .error (jsOrStr c e.message) (some (errData e)),
    ?_, rfl, rfl, ?_⟩
  · simp [logError, log, shouldLog, h]
  · intro hc
    subst hc
    rfl

/-- Witness for C8 at the development configuration with no context
argument. -/
theorem c8_logError_witness :
    ∃ en, (logError developmentConfig "App" "t8" devX Option.none ⟨[], false⟩
        ⟨"TypeError", "boom", "stack-trace"⟩ Option.none).entryBuilt = some en ∧
      en.level = .error ∧ en.data = some (errData ⟨"TypeError", "boom", "stack-trace"⟩) ∧
      (Option.none = (Option.none : Option String) → en.message = "boom") :=
  c8_logError developmentConfig "App" "t8" devX Option.none ⟨[], false⟩
    ⟨"TypeError", "boom", "stack-trace"⟩ Option.none (by decide)

/-- An entry carrying the falsy payload `0` used in the C9 counterexample. -/
def eC9 : LogEntry :=
  ⟨"2024-01-01T00:00:09.000Z", .info, "count", "App", some (.num 0), Option.none⟩

/-- C9 counterexample: an entry carrying the data payload `0`.  `exportLogs`
tests `log.data ?` with JavaScript truthiness, so the falsy payload gets no
data segment: the exported line is identical to the line of the same entry
with **no** payload at all — the segment does not appear exactly when the
entry carries a payload. -/
theorem c9_counterexample :
    eC9.data.isSome = true ∧
    exportLine eC9 = exportLine { eC9 with data := Option.none } := by
  exact ⟨rfl, rfl⟩

/-- The export format as amended: one line per stored entry, oldest first, of
the form `"<timestamp> [<LEVEL>] [<context>] <message>"` with a
`" <data-as-text>"` segment exactly when the entry carries a **truthy** data
payload, joined with newlines. -/
def truthyExportFormat (s : Storage) : String :=
  String.intercalate "\n" ((getStoredLogs s).map (fun e =>
    e.timestamp ++ " [" ++ e.level.upper ++ "] [" ++ e.context ++ "] " ++ e.message ++
      (match e.data with
       | some d => if d.truthy then " " ++ jsonStringify d else ""
       | Option.none => "")))

/-- C9 amended: for every stored sequence, `exportLogs` produces one line per
entry, oldest first, newline-joined, in the claimed format — except that the
data segment appears exactly when the entry carries a *truthy* data payload
(a falsy payload such as `0`, `""`, `false` or `null` is present but not
rendered). -/
theorem c9_export_format (s : Storage) : exportLogs s = truthyExportFormat s := rfl

/-- C10: a logger produced by `withContext` starts with an empty pending
queue and no armed timer; an enqueue on instance `i` leaves every other
instance's private state untouched; an entry absent from instance `j`'s queue
and enqueued through a different instance `i` never appears in a batch
flushed by `j`; and the flush/timer action triggered by an enqueue on `i`
depends only on instance `i`'s own state — so the 10-entry trigger counts
only entries enqueued through the same instance. -/
theorem c10_instance_isolation :
    (∀ (l : Logger) (ctx : String),
      (withContext l ctx).pendingLogs = [] ∧ (withContext l ctx).flushTimer = false) ∧
    (∀ (cfg : LoggingConfig) (i j : Nat) (e : LogEntry) (s : SysState), j ≠ i →
      (sysEnqueue cfg i e s).1 j = s j) ∧
    (∀ (cfg : LoggingConfig) (i j : Nat) (e : LogEntry) (s : SysState)
      (arr : List LogEntry) (out : Except Unit Nat) (b : List LogEntry), j ≠ i →
      e ∉ (s j).pendingLogs →
      (sysFlush cfg j arr out ((sysEnqueue cfg i e s).1)).2 = some b → e ∉ b) ∧
    (∀ (cfg : LoggingConfig) (i : Nat) (e : LogEntry) (s s' : SysState), s i = s' i →
      (sysEnqueue cfg i e s).2 = (sysEnqueue cfg i e s').2) := by
  refine ⟨fun l ctx => ⟨rfl, rfl⟩, ?_, ?_, ?_⟩
  · intro cfg i j e s hji
    simp [sysEnqueue, hji]
  · intro cfg i j e s arr out b hji hmem hflush
    have hj : ((sysEnqueue cfg i e s).1) j = s j := by simp [sysEnqueue, hji]
    simp only [sysFlush, hj] at hflush
    unfold flushRemoteLogs at hflush
    by_cases hcond : (s j).pendingLogs.length = 0 ∨ jsTruthyStr cfg.remoteEndpoint = false
    · rw [if_pos hcond] at hflush
      exact absurd hflush (by simp)
    · rw [if_neg hcond] at hflush
      match out with
      | .ok st =>
        have hb : b = (s j).pendingLogs := by
          have := hflush
          simp at this
          exact this.symm
        rw [hb]
        exact hmem
      | .error u =>
        exact absurd hflush (by simp)
  · intro cfg i e s s' hss
    simp [sysEnqueue, hss]

/-- Witness for C10: with two fresh instances, enqueueing through instance 0
leaves instance 1's queue empty. -/
theorem c10_instance_isolation_witness :
    (sysEnqueue productionConfig 0 eW (fun _ => ⟨[], false⟩)).1 1 = ⟨[], false⟩ :=
  c10_instance_isolation.2.1 productionConfig 0 1 eW (fun _ => ⟨[], false⟩) (by decide)

end FrugalBites
